import Mathlib

/-!
Verification of the order-execution and position-management engine of the
trading_ecosystem repository.

The definitions below are a shallow embedding of the Python source:
  * `app/services/execution_engine.py` (order matcher, ledger writer,
    position manager, risk monitor), and
  * `app/crud/position.py` (revaluation and manual close).

Monetary quantities (Python `Decimal` / `float` at the modelled level) are
embedded as `ℚ`.  Database sessions, Redis and timestamps are abstracted
away; the per-order distributed lock and the fresh-status re-check are
modelled explicitly as a two-process interleaved transition system at the
end of the file.
-/

/-- Mirrors `OrderSide` in `app/models/order.py` (BUY / SELL). -/
inductive OrderSide
  | buy
  | sell
deriving DecidableEq, Repr

/-- Mirrors `OrderType` in `app/models/order.py`
(MARKET / LIMIT / STOP / STOP_LIMIT). -/
inductive OrderType
  | market
  | limit
  | stop
  | stopLimit
deriving DecidableEq, Repr

/-- Mirrors `OrderStatus` in `app/models/order.py`.  `partFilled` models the
source's `PARTIAL` status. -/
inductive OrderStatus
  | pending
  | partFilled
  | filled
  | cancelled
  | rejected
  | expired
deriving DecidableEq, Repr

/-- Mirrors `PositionSide` in `app/models/position.py` (LONG / SHORT). -/
inductive PositionSide
  | long
  | short
deriving DecidableEq, Repr

/-- Mirrors `PositionStatus` in `app/models/position.py`.  `open_` models the
source's `OPEN` status (`open` is a keyword in Lean). -/
inductive PositionStatus
  | open_
  | closed
  | liquidated
deriving DecidableEq, Repr

/-- Mirrors `LedgerEntryType` in `app/models/account_ledger.py`
(the constructors relevant to the execution engine and the manual
close-position endpoint). -/
inductive LedgerEntryType
  | deposit
  | withdrawal
  | pnl
  | fee
  | marginCall
  | positionClose
deriving DecidableEq, Repr

/-- Mirrors the `TradingEvent` constants in
`app/services/execution_engine.py` (`order_part_filled` models the
source's ORDER_PARTIALLY_FILLED). -/
inductive TEvent
  | order_filled
  | order_part_filled
  | order_cancelled
  | order_rejected
  | position_opened
  | position_updated
  | position_closed
  | position_liquidated
  | stop_loss_triggered
  | take_profit_triggered
  | margin_call
  | account_updated
deriving DecidableEq, Repr

/-- The fields of an `AccountLedger` row (`app/models/account_ledger.py`)
written by the engine: entry type, signed amount and the balance
before/after the entry's own application. -/
structure LedgerEntry where
  entry_type : LedgerEntryType
  amount : ℚ
  balance_before : ℚ
  balance_after : ℚ
deriving DecidableEq, Repr

/-- The fields of an `Order` row (`app/models/order.py`) read or written by
the matcher.  `price` is the limit price (NULL for market orders) and
`stop_price` the stop trigger price, both nullable as in the source. -/
structure OrderRec where
  status : OrderStatus
  side : OrderSide
  order_type : OrderType
  quantity : ℚ
  filled_quantity : ℚ
  remaining_quantity : ℚ
  price : Option ℚ
  stop_price : Option ℚ
  total_amount : ℚ
  filled_amount : ℚ
  remaining_amount : ℚ
  average_fill_price : ℚ
  commission_rate : ℚ
  leverage : ℚ
deriving DecidableEq, Repr

/-- The fields of a `Trade` row (`app/models/trade.py`) created by
`_fill_order`.  `side` records the order's side (the source maps
`OrderSide` to the identical `TradeSide`); `entry_price` is the fill
price; `realized_pnl` is set later by `_update_existing_position` for
decreasing trades. -/
structure TradeRec where
  side : OrderSide
  quantity : ℚ
  entry_price : ℚ
  amount : ℚ
  commission : ℚ
  commission_rate : ℚ
  leverage : ℚ
  margin_used : ℚ
  realized_pnl : Option ℚ
deriving DecidableEq, Repr

/-- The fields of a `Position` row (`app/models/position.py`) read or
written by the engine. -/
structure Position where
  status : PositionStatus
  side : PositionSide
  quantity : ℚ
  average_entry_price : ℚ
  current_price : ℚ
  unrealized_pnl : ℚ
  realized_pnl : ℚ
  total_pnl : ℚ
  leverage : ℚ
  margin_used : ℚ
  stop_loss : Option ℚ
  take_profit : Option ℚ
  total_trades : ℕ
  total_volume : ℚ
  total_fees : ℚ
deriving DecidableEq, Repr

/-- Shallow embedding of `ExecutionEngine._update_account_ledger`
(`app/services/execution_engine.py`, lines 924-977).

Input: the order's side, the trade's `amount` and `commission`, and the
account balance read at entry (`balance_before`).  Output: the account
balance after the function ran, together with the list of ledger entries
added, in order.  The source:
  * computes `net_amount = ±trade.amount - trade.commission` (sign by side),
  * adds `net_amount` to the account balance,
  * writes a `PNL` entry `(net_amount, balance_before, balance_after)`,
  * if `trade.commission > 0`, writes a `FEE` entry
    `(-commission, balance_after, balance_after - commission)` and
    subtracts the commission from the account balance a second time. -/
def update_account_ledger (side : OrderSide) (trade_amount commission balance0 : ℚ) :
    ℚ × List LedgerEntry :=
  let net_amount := (if side = OrderSide.buy then trade_amount else -trade_amount) - commission
  let balance_after := balance0 + net_amount
  let ledger_entry : LedgerEntry :=
    { entry_type := LedgerEntryType.pnl
      amount := net_amount
      balance_before := balance0
      balance_after := balance_after }
  if 0 < commission then
    let commission_entry : LedgerEntry :=
      { entry_type := LedgerEntryType.fee
        amount := -commission
        balance_before := balance_after
        balance_after := balance_after - commission }
    (balance_after - commission, [ledger_entry, commission_entry])
  else
    (balance_after, [ledger_entry])

/-- C2: for a fill with commission > 0, `_update_account_ledger` deducts the
commission twice: the pnl entry's amount is already net of commission and
the balance drops by the commission again when the fee entry is written, so
the account's total balance change is ±trade_amount - 2·commission, which
equals the sum of the two entries' amounts. -/
theorem C2_commission_deducted_twice (side : OrderSide) (trade_amount commission balance0 : ℚ)
    (hc : 0 < commission) :
    (update_account_ledger side trade_amount commission balance0).1 - balance0 =
      (if side = OrderSide.buy then trade_amount else -trade_amount) - 2 * commission ∧
    (update_account_ledger side trade_amount commission balance0).1 - balance0 =
      (((update_account_ledger side trade_amount commission balance0).2.map
        LedgerEntry.amount).sum) := by
  simp only [update_account_ledger, if_pos hc]
  constructor
  · ring
  · simp [List.sum_cons]
    ring

/-- Witness for C2 at a concrete buy fill: trade_amount = 100,
commission = 2, starting balance 1000. -/
theorem C2_commission_deducted_twice_witness :
    (update_account_ledger OrderSide.buy 100 2 1000).1 - 1000 =
      (if OrderSide.buy = OrderSide.buy then (100 : ℚ) else -100) - 2 * 2 ∧
    (update_account_ledger OrderSide.buy 100 2 1000).1 - 1000 =
      (((update_account_ledger OrderSide.buy 100 2 1000).2.map
        LedgerEntry.amount).sum) :=
  C2_commission_deducted_twice OrderSide.buy 100 2 1000 (by norm_num)

/-- C5: on every fill the ledger writer appends one `pnl` entry with amount
±trade_amount - commission, and, if commission > 0, a separate `fee` entry
with amount -commission whose `balance_before` equals the pnl entry's
`balance_after`; every entry written satisfies
`balance_after = balance_before + amount`. -/
theorem C5_ledger_entries_shape (side : OrderSide) (trade_amount commission balance0 : ℚ) :
    (∃ pnlE rest, (update_account_ledger side trade_amount commission balance0).2 =
        pnlE :: rest ∧
      pnlE.entry_type = LedgerEntryType.pnl ∧
      pnlE.amount = (if side = OrderSide.buy then trade_amount else -trade_amount) - commission) ∧
    (0 < commission →
      ∃ pnlE feeE, (update_account_ledger side trade_amount commission balance0).2 =
          [pnlE, feeE] ∧
        feeE.entry_type = LedgerEntryType.fee ∧
        feeE.amount = -commission ∧
        feeE.balance_before = pnlE.balance_after) ∧
    (∀ e ∈ (update_account_ledger side trade_amount commission balance0).2,
      e.balance_after = e.balance_before + e.amount) := by
  by_cases hc : 0 < commission
  · simp only [update_account_ledger, if_pos hc]
    refine ⟨⟨_, _, rfl, rfl, rfl⟩, fun _ => ⟨_, _, rfl, rfl, rfl, rfl⟩, ?_⟩
    intro e he
    simp only [List.mem_cons, List.not_mem_nil, or_false] at he
    rcases he with h | h <;> subst h <;> simp <;> ring
  · simp only [update_account_ledger, if_neg hc]
    refine ⟨⟨_, _, rfl, rfl, rfl⟩, fun h => absurd h hc, ?_⟩
    intro e he
    simp only [List.mem_cons, List.not_mem_nil, or_false] at he
    subst he
    simp

/-- Witness for C5 at a concrete sell fill: trade_amount = 42000,
commission = 42, starting balance 100000. -/
theorem C5_ledger_entries_shape_witness :
    (∃ pnlE rest, (update_account_ledger OrderSide.sell 42000 42 100000).2 =
        pnlE :: rest ∧
      pnlE.entry_type = LedgerEntryType.pnl ∧
      pnlE.amount = (if OrderSide.sell = OrderSide.buy then (42000 : ℚ) else -42000) - 42) ∧
    ((0 : ℚ) < 42 →
      ∃ pnlE feeE, (update_account_ledger OrderSide.sell 42000 42 100000).2 =
          [pnlE, feeE] ∧
        feeE.entry_type = LedgerEntryType.fee ∧
        feeE.amount = -42 ∧
        feeE.balance_before = pnlE.balance_after) ∧
    (∀ e ∈ (update_account_ledger OrderSide.sell 42000 42 100000).2,
      e.balance_after = e.balance_before + e.amount) :=
  C5_ledger_entries_shape OrderSide.sell 42000 42 100000

/-- Shallow embedding of `ExecutionEngine._reject_order`
(`app/services/execution_engine.py`, lines 1119-1138): the order's status is
set to REJECTED (rejection reason and timestamp are not modelled); no
quantity or amount field is touched. -/
def reject_order (o : OrderRec) : OrderRec :=
  { o with status := OrderStatus.rejected }

/-- Shallow embedding of `ExecutionEngine._fill_order`
(`app/services/execution_engine.py`, lines 679-774).

Returns the updated order together with the created trade record
(`none` when the fresh status re-check finds the order no longer pending and
the function returns without filling).  The source, under the row-level
lock:
  * re-checks `status == PENDING`,
  * computes `fill_amount = fill_quantity * fill_price` and
    `commission = fill_amount * commission_rate`,
  * creates the `Trade` row,
  * adds the fill to `filled_quantity`/`filled_amount`, recomputes
    `remaining_quantity = quantity - filled_quantity`,
    `remaining_amount = total_amount - filled_amount` and (when
    `filled_quantity > 0`) `average_fill_price = filled_amount / filled_quantity`,
  * sets the status to FILLED when `remaining_quantity <= 0`, else PARTIAL. -/
def fill_order (o : OrderRec) (fill_quantity fill_price : ℚ) :
    OrderRec × Option TradeRec :=
  if o.status ≠ OrderStatus.pending then (o, none)
  else
    let fill_amount := fill_quantity * fill_price
    let commission := fill_amount * o.commission_rate
    let trade : TradeRec :=
      { side := o.side
        quantity := fill_quantity
        entry_price := fill_price
        amount := fill_amount
        commission := commission
        commission_rate := o.commission_rate
        leverage := o.leverage
        margin_used := if 1 < o.leverage then fill_amount / o.leverage else fill_amount
        realized_pnl := none }
    let filled_quantity := o.filled_quantity + fill_quantity
    let filled_amount := o.filled_amount + fill_amount
    let remaining_quantity := o.quantity - filled_quantity
    let remaining_amount := o.total_amount - filled_amount
    let average_fill_price :=
      if 0 < filled_quantity then filled_amount / filled_quantity else o.average_fill_price
    let status :=
      if remaining_quantity ≤ 0 then OrderStatus.filled else OrderStatus.partFilled
    ({ o with
        filled_quantity := filled_quantity
        filled_amount := filled_amount
        remaining_quantity := remaining_quantity
        remaining_amount := remaining_amount
        average_fill_price := average_fill_price
        status := status },
     some trade)

/-- Shallow embedding of one matcher pass over one pending order:
`ExecutionEngine._process_order` (`app/services/execution_engine.py`,
lines 336-435) together with the dispatched handlers
`_execute_market_order` (437-451), `_check_limit_order` (453-475),
`_check_stop_order` (477-509) and `_check_stop_limit_order` (511-541).

Arguments: the freshly re-fetched order, the price-cache lookup for the
order's instrument symbol (`none` when the symbol has no cached price),
whether the symbol is a test symbol (`symbol.startswith('TEST')` in the
source) and whether the symbol is already in the engine's
`_missing_price_logged` set.  Returns the resulting order and the trade
created, if any.

The control flow mirrors the source exactly, including its indentation:
the `_missing_price_logged` block runs whether or not a price is cached
(it is not nested under `if not current_price_data`), so
  * when the symbol is not yet in `_missing_price_logged` the function
    logs and returns without processing, even when a price is cached; and
  * when the symbol is already in `_missing_price_logged` and no price is
    cached, execution falls through to `current_price_data['price']` with
    `current_price_data = None`, raising `TypeError`, which the outer
    `except` handler turns into `_reject_order`. -/
def process_order_full (o : OrderRec) (priceData : Option ℚ)
    (isTest symbolLogged : Bool) : OrderRec × Option TradeRec :=
  if o.status ≠ OrderStatus.pending then (o, none)
  else if priceData = none ∧ isTest = true then (reject_order o, none)
  else if symbolLogged = false then (o, none)
  else
    match priceData with
    | none => (reject_order o, none)
    | some current_price =>
      match o.order_type with
      | OrderType.market => fill_order o o.quantity current_price
      | OrderType.limit =>
        match o.price with
        | none => (o, none)
        | some limit_price =>
          if o.side = OrderSide.buy then
            if current_price ≤ limit_price then
              fill_order o o.remaining_quantity (min current_price limit_price)
            else (o, none)
          else
            if limit_price ≤ current_price then
              fill_order o o.remaining_quantity (max current_price limit_price)
            else (o, none)
      | OrderType.stop =>
        match o.stop_price with
        | none => (o, none)
        | some sp =>
          if (if o.side = OrderSide.buy then sp ≤ current_price else current_price ≤ sp) then
            let converted := { o with order_type := OrderType.market, price := none }
            fill_order converted converted.quantity current_price
          else (o, none)
      | OrderType.stopLimit =>
        match o.stop_price with
        | none => (o, none)
        | some sp =>
          if (if o.side = OrderSide.buy then sp ≤ current_price else current_price ≤ sp) then
            ({ o with order_type := OrderType.limit, stop_price := none }, none)
          else (o, none)

/-- A concrete pending limit buy order: limit price 100, quantity 1,
commission rate 0, used as evaluation input for C1 and C7. -/
def sampleLimitBuy : OrderRec :=
  { status := OrderStatus.pending
    side := OrderSide.buy
    order_type := OrderType.limit
    quantity := 1
    filled_quantity := 0
    remaining_quantity := 1
    price := some 100
    stop_price := none
    total_amount := 100
    filled_amount := 0
    remaining_amount := 100
    average_fill_price := 0
    commission_rate := 0
    leverage := 1 }

/-- C1 (failing input): a pending, non-test order whose symbol has no entry
in the price cache but is already in `_missing_price_logged` (the second
consecutive tick with the price missing) is REJECTED by the matcher pass —
the fall-through subscripts `current_price_data['price']` on `None` and the
exception handler rejects the order — contradicting the claim that a
missing price never rejects the order and leaves it pending and unchanged. -/
theorem C1_missing_price_rejects_order :
    (process_order_full sampleLimitBuy none false true).1.status = OrderStatus.rejected ∧
    (process_order_full sampleLimitBuy none false true).1 ≠ sampleLimitBuy ∧
    OrderStatus.rejected ≠ OrderStatus.pending := by
  refine ⟨rfl, ?_, by decide⟩
  decide

/-- C1 (first-pass behaviour, for contrast): on the first pass for the
symbol (not yet in `_missing_price_logged`) the missing-price order is
indeed skipped completely unchanged, as the claim states. -/
theorem C1_missing_price_first_pass_skips :
    process_order_full sampleLimitBuy none false false = (sampleLimitBuy, none) := by
  decide

/-- C7: a pending limit order evaluated against a cached price fills
exactly when the limit condition holds — buy: current ≤ limit, executed at
min(current, limit); sell: current ≥ limit, executed at max(current, limit) —
for the full remaining quantity, and is left pending and unchanged
otherwise.  (`symbolLogged = true` is required to reach the dispatch: on
the first pass for a symbol the matcher skips every order, see C1.) -/
theorem C7_limit_order_trigger (o : OrderRec) (current_price limit_price : ℚ)
    (isTest : Bool)
    (hs : o.status = OrderStatus.pending)
    (ht : o.order_type = OrderType.limit)
    (hp : o.price = some limit_price) :
    (o.side = OrderSide.buy → current_price ≤ limit_price →
      ∃ t, (process_order_full o (some current_price) isTest true).2 = some t ∧
        t.entry_price = min current_price limit_price ∧
        t.quantity = o.remaining_quantity ∧
        (process_order_full o (some current_price) isTest true).1.filled_quantity =
          o.filled_quantity + o.remaining_quantity) ∧
    (o.side = OrderSide.buy → limit_price < current_price →
      process_order_full o (some current_price) isTest true = (o, none)) ∧
    (o.side = OrderSide.sell → limit_price ≤ current_price →
      ∃ t, (process_order_full o (some current_price) isTest true).2 = some t ∧
        t.entry_price = max current_price limit_price ∧
        t.quantity = o.remaining_quantity ∧
        (process_order_full o (some current_price) isTest true).1.filled_quantity =
          o.filled_quantity + o.remaining_quantity) ∧
    (o.side = OrderSide.sell → current_price < limit_price →
      process_order_full o (some current_price) isTest true = (o, none)) := by
  have hnp : ¬ o.status ≠ OrderStatus.pending := by simp [hs]
  refine ⟨?_, ?_, ?_, ?_⟩
  · intro hb hle
    simp only [process_order_full, hnp, if_false, ite_false, ite_true]
    simp only [hs, ht, hp, hb, fill_order]
    simp [hnp, hle]
  · intro hb hgt
    simp only [process_order_full, hnp, ite_false, ite_true]
    simp [hs, ht, hp, hb, not_le.mpr hgt]
  · intro hb hle
    have hbs : o.side ≠ OrderSide.buy := by simp [hb]
    simp only [process_order_full, hnp, ite_false, ite_true]
    simp only [hs, ht, hp, hbs, fill_order]
    simp [hnp, hle]
  · intro hb hgt
    have hbs : o.side ≠ OrderSide.buy := by simp [hb]
    simp only [process_order_full, hnp, ite_false, ite_true]
    simp [hs, ht, hp, hbs, not_le.mpr hgt]

/-- Witness for C7 at the spec's scenario: a limit buy with limit 100 fills
at min(99, 100) = 99 when the current price is 99, and remains pending and
unchanged when the current price is 105. -/
theorem C7_limit_order_trigger_witness :
    (∃ t, (process_order_full sampleLimitBuy (some 99) false true).2 = some t ∧
      t.entry_price = min 99 100 ∧
      t.quantity = sampleLimitBuy.remaining_quantity ∧
      (process_order_full sampleLimitBuy (some 99) false true).1.filled_quantity =
        sampleLimitBuy.filled_quantity + sampleLimitBuy.remaining_quantity) ∧
    process_order_full sampleLimitBuy (some 105) false true = (sampleLimitBuy, none) :=
  ⟨(C7_limit_order_trigger sampleLimitBuy 99 100 false rfl rfl rfl).1 rfl (by norm_num),
   (C7_limit_order_trigger sampleLimitBuy 105 100 false rfl rfl rfl).2.1 rfl (by norm_num)⟩

/-- C8: a matcher invocation preserves the order invariant
`filled_quantity + remaining_quantity = quantity`: a fill re-establishes it
outright (the source recomputes `remaining_quantity = quantity -
filled_quantity`), and the skip, convert and reject paths leave the
quantity fields untouched.  The second conjunct covers `_fill_order`
called directly (the stop-loss / take-profit / liquidation paths),
where the invariant holds unconditionally after a fill. -/
theorem C8_quantity_invariant (o : OrderRec) (priceData : Option ℚ)
    (isTest symbolLogged : Bool)
    (hinv : o.filled_quantity + o.remaining_quantity = o.quantity) :
    ((process_order_full o priceData isTest symbolLogged).1.filled_quantity +
      (process_order_full o priceData isTest symbolLogged).1.remaining_quantity =
      (process_order_full o priceData isTest symbolLogged).1.quantity) ∧
    (∀ fq fp : ℚ, (fill_order o fq fp).1.filled_quantity +
      (fill_order o fq fp).1.remaining_quantity = (fill_order o fq fp).1.quantity) := by
  have hfill : ∀ (o' : OrderRec) (fq fp : ℚ),
      o'.filled_quantity + o'.remaining_quantity = o'.quantity →
      (fill_order o' fq fp).1.filled_quantity + (fill_order o' fq fp).1.remaining_quantity =
        (fill_order o' fq fp).1.quantity := by
    intro o' fq fp hinv'
    by_cases hp : o'.status ≠ OrderStatus.pending
    · simp [fill_order, hp, hinv']
    · simp [fill_order, hp]
  refine ⟨?_, fun fq fp => hfill o fq fp hinv⟩
  unfold process_order_full reject_order
  repeat' split
  all_goals first
    | exact hinv
    | exact hfill _ _ _ hinv

/-- Witness for C8 at a concrete input: the sample limit buy processed at
current price 99 (a full fill). -/
theorem C8_quantity_invariant_witness :
    ((process_order_full sampleLimitBuy (some 99) false true).1.filled_quantity +
      (process_order_full sampleLimitBuy (some 99) false true).1.remaining_quantity =
      (process_order_full sampleLimitBuy (some 99) false true).1.quantity) ∧
    (∀ fq fp : ℚ, (fill_order sampleLimitBuy fq fp).1.filled_quantity +
      (fill_order sampleLimitBuy fq fp).1.remaining_quantity =
      (fill_order sampleLimitBuy fq fp).1.quantity) :=
  C8_quantity_invariant sampleLimitBuy (some 99) false true (by norm_num [sampleLimitBuy])

/-- Shallow embedding of `ExecutionEngine._calculate_realized_pnl`
(`app/services/execution_engine.py`, lines 915-922): realized P&L of a
trade against a position, computed on the trade's full quantity at the
trade's fill price (`trade.entry_price`). -/
def calculate_realized_pnl (p : Position) (trade_entry_price trade_quantity : ℚ) : ℚ :=
  if p.side = PositionSide.long then
    (trade_entry_price - p.average_entry_price) * trade_quantity
  else
    (p.average_entry_price - trade_entry_price) * trade_quantity

/-- Shallow embedding of `ExecutionEngine._update_existing_position`
(`app/services/execution_engine.py`, lines 794-871).

Returns the updated position, the trade (with `realized_pnl` filled in for
decreasing trades) and the events emitted.  The source, under the
row-level lock:
  * returns unchanged if the position is no longer OPEN;
  * for a same-direction (increasing) fill recomputes the weighted average
    entry price and adds the trade's quantity and margin;
  * for an opposite-direction fill computes the realized P&L delta with
    `_calculate_realized_pnl` (on the trade's full quantity), adds it to
    the running `realized_pnl`, and either closes the position fully
    (`trade.quantity >= position.quantity`: status CLOSED, quantity 0) or
    reduces quantity and margin (partial close);
  * for decreasing fills stores the same delta on the trade
    (`average_entry_price` is unchanged by a decrease, so the recomputation
    after the mutation yields the same value);
  * increments `total_trades` and adds to `total_volume` / `total_fees`. -/
def update_existing_position (p : Position) (orderSide : OrderSide) (t : TradeRec) :
    Position × TradeRec × List TEvent :=
  if p.status ≠ PositionStatus.open_ then (p, t, [])
  else
    let is_increasing :=
      (p.side = PositionSide.long ∧ orderSide = OrderSide.buy) ∨
      (p.side = PositionSide.short ∧ orderSide = OrderSide.sell)
    if is_increasing then
      let new_quantity := p.quantity + t.quantity
      let new_total_cost := p.quantity * p.average_entry_price + t.amount
      let p1 := { p with
        average_entry_price := new_total_cost / new_quantity
        quantity := new_quantity
        margin_used := p.margin_used + t.margin_used }
      ({ p1 with
          total_trades := p1.total_trades + 1
          total_volume := p1.total_volume + t.amount
          total_fees := p1.total_fees + t.commission },
       t, [])
    else if p.quantity ≤ t.quantity then
      let realized_pnl := calculate_realized_pnl p t.entry_price t.quantity
      let p1 := { p with
        realized_pnl := p.realized_pnl + realized_pnl
        status := PositionStatus.closed
        quantity := 0 }
      let t1 := { t with realized_pnl := some (calculate_realized_pnl p1 t.entry_price t.quantity) }
      ({ p1 with
          total_trades := p1.total_trades + 1
          total_volume := p1.total_volume + t.amount
          total_fees := p1.total_fees + t.commission },
       t1, [TEvent.position_closed])
    else
      let realized_pnl := calculate_realized_pnl p t.entry_price t.quantity
      let p1 := { p with
        realized_pnl := p.realized_pnl + realized_pnl
        quantity := p.quantity - t.quantity
        margin_used := p.margin_used - t.margin_used }
      let t1 := { t with realized_pnl := some (calculate_realized_pnl p1 t.entry_price t.quantity) }
      ({ p1 with
          total_trades := p1.total_trades + 1
          total_volume := p1.total_volume + t.amount
          total_fees := p1.total_fees + t.commission },
       t1, [TEvent.position_updated])

/-- A concrete open long position: quantity 1 at average entry 40000. -/
def longPos40000 : Position :=
  { status := PositionStatus.open_
    side := PositionSide.long
    quantity := 1
    average_entry_price := 40000
    current_price := 40000
    unrealized_pnl := 0
    realized_pnl := 0
    total_pnl := 0
    leverage := 1
    margin_used := 40000
    stop_loss := none
    take_profit := none
    total_trades := 1
    total_volume := 40000
    total_fees := 0 }

/-- A concrete sell trade of quantity 2 at price 42000 (an oversell against
`longPos40000`, which holds only quantity 1). -/
def overSellTrade : TradeRec :=
  { side := OrderSide.sell
    quantity := 2
    entry_price := 42000
    amount := 84000
    commission := 0
    commission_rate := 0
    leverage := 1
    margin_used := 84000
    realized_pnl := none }

/-- C6 counterexample: a sell fill of quantity 2 against an open long
position of quantity 1 (entry 40000, exit 42000) closes the position —
the closed quantity is 1 — but the realized P&L delta recorded is
(42000 - 40000) * 2 = 4000, computed on the trade's full quantity, not
(42000 - 40000) * 1 = 2000 as the claim's closed-quantity formula states. -/
theorem C6_oversell_counterexample :
    (update_existing_position longPos40000 OrderSide.sell overSellTrade).1.status =
      PositionStatus.closed ∧
    (update_existing_position longPos40000 OrderSide.sell overSellTrade).1.quantity = 0 ∧
    longPos40000.quantity = 1 ∧
    (update_existing_position longPos40000 OrderSide.sell overSellTrade).1.realized_pnl = 4000 ∧
    (update_existing_position longPos40000 OrderSide.sell overSellTrade).2.1.realized_pnl =
      some 4000 ∧
    (42000 - 40000) * (1 : ℚ) = 2000 ∧
    (4000 : ℚ) ≠ 2000 := by
  refine ⟨rfl, ?_, ?_, ?_, ?_, by norm_num, by norm_num⟩ <;>
    (norm_num [update_existing_position, longPos40000, overSellTrade,
      calculate_realized_pnl] <;> rfl)

/-- C6 (amended): for every fill that decreases or closes an open position,
the realized P&L delta recorded (both the increment to the position's
`realized_pnl` and the value stored on the trade) equals
(exit - entry) * fill_quantity for a long position and
(entry - exit) * fill_quantity for a short one, where `fill_quantity` is
the trade's full quantity; this coincides with the claim's closed quantity
whenever fill_quantity ≤ position quantity, but in an oversell the full
fill quantity is used. -/
theorem C6_realized_pnl_formula (p : Position) (orderSide : OrderSide) (t : TradeRec)
    (hopen : p.status = PositionStatus.open_)
    (hdec : ¬ ((p.side = PositionSide.long ∧ orderSide = OrderSide.buy) ∨
      (p.side = PositionSide.short ∧ orderSide = OrderSide.sell))) :
    (update_existing_position p orderSide t).1.realized_pnl =
      p.realized_pnl +
        (if p.side = PositionSide.long then (t.entry_price - p.average_entry_price) * t.quantity
          else (p.average_entry_price - t.entry_price) * t.quantity) ∧
    (update_existing_position p orderSide t).2.1.realized_pnl =
      some (if p.side = PositionSide.long then (t.entry_price - p.average_entry_price) * t.quantity
        else (p.average_entry_price - t.entry_price) * t.quantity) := by
  have hnp : ¬ p.status ≠ PositionStatus.open_ := by simp [hopen]
  by_cases hq : p.quantity ≤ t.quantity
  · simp [update_existing_position, hnp, hdec, hq, calculate_realized_pnl]
  · simp [update_existing_position, hnp, hdec, hq, calculate_realized_pnl]

/-- Witness for C6 at the spec's example: long position, entry 40000,
closing sell of quantity 1 at 42000 yields a recorded delta of +2000. -/
theorem C6_realized_pnl_formula_witness :
    (update_existing_position longPos40000 OrderSide.sell
      { overSellTrade with quantity := 1, amount := 42000, margin_used := 42000 }).1.realized_pnl =
      2000 := by
  have h := (C6_realized_pnl_formula longPos40000 OrderSide.sell
    { overSellTrade with quantity := 1, amount := 42000, margin_used := 42000 }
    rfl (by decide)).1
  norm_num [longPos40000, overSellTrade] at h
  exact h

/-- C3 counterexample: a sell fill of quantity 1 at 42000 against
`longPos40000` closes the position, yet the engine's fill path
(`_update_account_ledger`, the only ledger writer on the fill path) writes
a `pnl` entry and a `fee` entry and no entry of type `position_close`
(commission 42 on a 42000 trade, starting balance 100000). -/
theorem C3_no_position_close_entry_counterexample :
    (update_existing_position longPos40000 OrderSide.sell
      { overSellTrade with quantity := 1, amount := 42000, commission := 42 }).1.status =
      PositionStatus.closed ∧
    ((update_account_ledger OrderSide.sell 42000 42 100000).2.map LedgerEntry.entry_type) =
      [LedgerEntryType.pnl, LedgerEntryType.fee] ∧
    LedgerEntryType.positionClose ∉
      ((update_account_ledger OrderSide.sell 42000 42 100000).2.map LedgerEntry.entry_type) := by
  refine ⟨rfl, ?_, ?_⟩ <;> norm_num [update_account_ledger] <;> decide

/-- C3 (amended): for every fill — in particular for every fill that closes
a position — the ledger entries written by the fill path are exactly the
`pnl` entry and, when commission > 0, the `fee` entry; no `position_close`
entry is ever written on a fill.  (`position_close` entries are produced
only by the manual close-position API endpoint, which closes positions
without a fill.) -/
theorem C3_fill_path_entry_types (side : OrderSide) (trade_amount commission balance0 : ℚ) :
    (((update_account_ledger side trade_amount commission balance0).2.map
        LedgerEntry.entry_type) = [LedgerEntryType.pnl] ∨
      ((update_account_ledger side trade_amount commission balance0).2.map
        LedgerEntry.entry_type) = [LedgerEntryType.pnl, LedgerEntryType.fee]) ∧
    LedgerEntryType.positionClose ∉
      ((update_account_ledger side trade_amount commission balance0).2.map
        LedgerEntry.entry_type) := by
  by_cases hc : 0 < commission
  · refine ⟨Or.inr ?_, ?_⟩ <;> simp [update_account_ledger, hc] <;> decide
  · refine ⟨Or.inl ?_, ?_⟩ <;> simp [update_account_ledger, hc] <;> decide

/-- Round-half-to-even of a rational to an integer, the rounding mode of
Python's built-in `round`. -/
def roundHalfEven (x : ℚ) : ℤ :=
  let f := Int.floor x
  let frac := x - f
  if frac < 1/2 then f
  else if 1/2 < frac then f + 1
  else if f % 2 = 0 then f else f + 1

/-- `round(x, 2)` of Python at the modelled (exact rational) level:
round-half-to-even at two decimal places. -/
def roundTo2 (x : ℚ) : ℚ :=
  (roundHalfEven (x * 100) : ℚ) / 100

/-- Shallow embedding of `CRUDPosition._calculate_unrealized_pnl`
(`app/crud/position.py`, lines 15-88).  The source validates
current price, entry price and quantity (each must be > 0, else 0.0 is
returned), computes the long/short P&L formula, rounds the result to two
decimal places with Python's `round` (half-to-even), and returns 0.0 when
the rounded magnitude exceeds the 1,000,000 sanity cap. -/
def calculate_unrealized_pnl (p : Position) (current_price : ℚ) : ℚ :=
  if current_price ≤ 0 then 0
  else if p.average_entry_price ≤ 0 then 0
  else if p.quantity ≤ 0 then 0
  else
    let pnl :=
      if p.side = PositionSide.long then (current_price - p.average_entry_price) * p.quantity
      else (p.average_entry_price - current_price) * p.quantity
    let rounded_pnl := roundTo2 pnl
    if 1000000 < |rounded_pnl| then 0 else rounded_pnl

/-- The revaluation of one open position by
`CRUDPosition.update_position_prices` (`app/crud/position.py`, lines
120-150): the query selects only OPEN positions for the instrument (here
the status guard), and for each one sets `current_price`, sets
`unrealized_pnl` from `_calculate_unrealized_pnl`, and sets
`total_pnl = realized_pnl + unrealized_pnl`. -/
def update_position_price (p : Position) (current_price : ℚ) : Position :=
  if p.status ≠ PositionStatus.open_ then p
  else
    let unrealized_pnl := calculate_unrealized_pnl p current_price
    { p with
        current_price := current_price
        unrealized_pnl := unrealized_pnl
        total_pnl := p.realized_pnl + unrealized_pnl }

/-- The unrealized P&L formula of the spec (`§4.3`): the exact product,
with no rounding — used to compare the code against the claim. -/
def pnlFormulaSpec (p : Position) (current_price : ℚ) : ℚ :=
  if p.side = PositionSide.long then (current_price - p.average_entry_price) * p.quantity
  else (p.average_entry_price - current_price) * p.quantity

/-- An open long position of quantity 1 at average entry 100. -/
def longPos100 : Position :=
  { status := PositionStatus.open_
    side := PositionSide.long
    quantity := 1
    average_entry_price := 100
    current_price := 100
    unrealized_pnl := 0
    realized_pnl := 0
    total_pnl := 0
    leverage := 1
    margin_used := 100
    stop_loss := none
    take_profit := none
    total_trades := 1
    total_volume := 100
    total_fees := 0 }

/-- C4 counterexample: revaluing a long position (entry 100, quantity 1) at
current price 100.125 stores unrealized P&L 0.12 — the exact product 0.125
rounded half-to-even to two decimal places by the source's `round(pnl, 2)` —
which differs from the exact product (100.125 - 100) * 1 = 0.125 required
by the claim, even though entry price, quantity and current price are all
positive and the result is far below the sanity cap. -/
theorem C4_rounding_counterexample :
    (update_position_price longPos100 (100125/1000)).unrealized_pnl = 12/100 ∧
    ((100125/1000 : ℚ) - 100) * 1 = 1/8 ∧
    (12/100 : ℚ) ≠ 1/8 := by
  have hfloor : Int.floor ((1/8 : ℚ) * 100) = 12 := by
    rw [Int.floor_eq_iff] <;> norm_num
  have hr : roundTo2 (1/8) = 12/100 := by
    simp only [roundTo2, roundHalfEven, hfloor]
    norm_num
  refine ⟨?_, by norm_num, by norm_num⟩
  have hpnl : ((100125/1000 : ℚ) - 100) * 1 = 1/8 := by norm_num
  simp only [update_position_price, calculate_unrealized_pnl, longPos100]
  norm_num [hpnl, hr]
  rw [abs_of_nonneg (by norm_num : (0 : ℚ) ≤ 3/25)]
  norm_num

/-- `round(x, 2)` is exact on multiples of 0.01: if `x * 100` is an
integer, rounding changes nothing. -/
theorem roundTo2_eq_self {x : ℚ} (k : ℤ) (h : x * 100 = k) : roundTo2 x = x := by
  have hfloor : Int.floor ((k : ℚ)) = k := Int.floor_intCast k
  have hx : x = (k : ℚ) / 100 := by
    field_simp
    linarith [h]
  simp only [roundTo2, roundHalfEven, h, hfloor]
  norm_num
  rw [hx]

/-- C4 (amended): for every open position with positive entry price,
quantity and current price whose rounded formula result is within the
1,000,000 sanity cap, revaluation sets unrealized P&L to the exact
long/short product rounded half-to-even to two decimal places (the
source's `round(pnl, 2)`), and `total_pnl` to `realized_pnl` plus that
value; the stored value equals the exact product precisely when the
product is an integer multiple of 0.01. -/
theorem C4_revaluation_rounds_to_cents (p : Position) (cp : ℚ)
    (hst : p.status = PositionStatus.open_)
    (hcp : 0 < cp) (he : 0 < p.average_entry_price) (hq : 0 < p.quantity)
    (hcap : |roundTo2 (pnlFormulaSpec p cp)| ≤ 1000000) :
    (update_position_price p cp).unrealized_pnl = roundTo2 (pnlFormulaSpec p cp) ∧
    (update_position_price p cp).total_pnl =
      p.realized_pnl + roundTo2 (pnlFormulaSpec p cp) ∧
    (∀ k : ℤ, pnlFormulaSpec p cp * 100 = k →
      (update_position_price p cp).unrealized_pnl = pnlFormulaSpec p cp) := by
  have hnst : ¬ p.status ≠ PositionStatus.open_ := by simp [hst]
  have hc1 : ¬ cp ≤ 0 := not_le.mpr hcp
  have hc2 : ¬ p.average_entry_price ≤ 0 := not_le.mpr he
  have hc3 : ¬ p.quantity ≤ 0 := not_le.mpr hq
  have hcap2 : ¬ 1000000 < |roundTo2 (pnlFormulaSpec p cp)| := not_lt.mpr hcap
  have hcap3 := hcap2
  simp only [pnlFormulaSpec] at hcap3
  have hmain : (update_position_price p cp).unrealized_pnl =
      roundTo2 (pnlFormulaSpec p cp) := by
    simp [update_position_price, calculate_unrealized_pnl, pnlFormulaSpec,
      hnst, hc1, hc2, hc3, hcap3]
  refine ⟨hmain, ?_, ?_⟩
  · simp [update_position_price, calculate_unrealized_pnl, pnlFormulaSpec,
      hnst, hc1, hc2, hc3, hcap3]
  · intro k hk
    rw [hmain, roundTo2_eq_self k hk]

/-- Witness for C4 at a concrete input: revaluing `longPos100` at current
price 102 (product 2, a multiple of 0.01, within the cap). -/
theorem C4_revaluation_rounds_to_cents_witness :
    (update_position_price longPos100 102).unrealized_pnl =
      roundTo2 (pnlFormulaSpec longPos100 102) :=
  (C4_revaluation_rounds_to_cents longPos100 102 rfl (by norm_num)
    (by norm_num [longPos100]) (by norm_num [longPos100])
    (by
      have h2 : pnlFormulaSpec longPos100 102 = 2 := by
        norm_num [pnlFormulaSpec, longPos100]
      rw [h2, roundTo2_eq_self 200 (by norm_num)]
      rw [abs_of_nonneg (by norm_num : (0 : ℚ) ≤ 2)]
      norm_num)).1

/-- The values `_liquidate_position` passes to the `Order(...)` constructor
(`app/services/execution_engine.py`, lines 1081-1092) — `_trigger_stop_loss`
and `_trigger_take_profit` build the same shape: order_type, side,
quantity, status and leverage are set (ids, flags and notes are not
modelled); the `orders` columns `remaining_quantity`, `total_amount` and
`remaining_amount` are `nullable=False` with NO default in
`app/models/order.py` and are NOT passed, so they are None (`none`) on the
constructed row.  Columns with defaults (`filled_quantity`,
`filled_amount`, `commission`, `commission_rate`) are omitted from this
row model because the INSERT never succeeds (see `orderInsertOk`). -/
structure SyntheticOrderRow where
  status : OrderStatus
  side : OrderSide
  order_type : OrderType
  quantity : ℚ
  leverage : ℚ
  remaining_quantity : Option ℚ
  total_amount : Option ℚ
  remaining_amount : Option ℚ
deriving DecidableEq, Repr

/-- The synthetic liquidation-order row exactly as the source constructs
it: a PENDING MARKET order for the full position quantity at the
position's leverage, with the three no-default NOT NULL columns unset. -/
def mkLiquidationOrderRow (side : OrderSide) (quantity leverage : ℚ) :
    SyntheticOrderRow :=
  { status := OrderStatus.pending
    side := side
    order_type := OrderType.market
    quantity := quantity
    leverage := leverage
    remaining_quantity := none
    total_amount := none
    remaining_amount := none }

/-- Admissibility of the synthetic row under the `orders` table's NOT NULL
constraints on the three columns the source leaves unset
(`app/models/order.py`: `remaining_quantity`, `total_amount`,
`remaining_amount`, all `nullable=False` with no default; the schema comes
from `Base.metadata.create_all`, `app/db/database.py`): the commit at
`execution_engine.py:1095` succeeds only when all three are present. -/
def orderInsertOk (r : SyntheticOrderRow) : Bool :=
  r.remaining_quantity.isSome && r.total_amount.isSome && r.remaining_amount.isSome

/-- Shallow embedding of `ExecutionEngine._liquidate_position`
(`app/services/execution_engine.py`, lines 1070-1117), including its error
path, sequentialized.

The source builds the synthetic opposite-side market order and commits it.
When the INSERT is admissible (all NOT NULL columns present) it executes
the order at the cached price (`_execute_market_order` → `_fill_order` →
`_update_position`, which closes the position), sets the position's status
to LIQUIDATED and emits a `position_liquidated` event.  When the INSERT
violates NOT NULL, the commit raises IntegrityError and the function-level
`except` (line 1116) only logs: the position is returned unchanged, no
order is persisted, nothing is filled and no event is emitted.  (Even
under a schema that admitted the row, `total_amount` is `None` in Python
and `_fill_order` line 725 — `remaining_amount = total_amount -
filled_amount` — would raise `TypeError` and reject the synthetic order
instead of filling it.) -/
def liquidate_position (p : Position) (priceData : Option ℚ) :
    Position × Option SyntheticOrderRow × List TEvent :=
  let liquidation_side :=
    if p.side = PositionSide.long then OrderSide.sell else OrderSide.buy
  let liquidation_order := mkLiquidationOrderRow liquidation_side p.quantity p.leverage
  match liquidation_order.remaining_quantity, liquidation_order.total_amount,
      liquidation_order.remaining_amount with
  | some rq, some ta, some ra =>
    let ord : OrderRec :=
      { status := liquidation_order.status
        side := liquidation_order.side
        order_type := liquidation_order.order_type
        quantity := liquidation_order.quantity
        filled_quantity := 0
        remaining_quantity := rq
        price := none
        stop_price := none
        total_amount := ta
        filled_amount := 0
        remaining_amount := ra
        average_fill_price := 0
        commission_rate := 1/1000
        leverage := liquidation_order.leverage }
    match priceData with
    | none =>
      ({ p with status := PositionStatus.liquidated }, some liquidation_order,
        [TEvent.position_liquidated])
    | some current_price =>
      let fr := fill_order ord ord.quantity current_price
      match fr.2 with
      | none =>
        ({ p with status := PositionStatus.liquidated }, some liquidation_order,
          [TEvent.position_liquidated])
      | some t =>
        let ur := update_existing_position p liquidation_side t
        ({ ur.1 with status := PositionStatus.liquidated }, some liquidation_order,
          ur.2.2 ++ [TEvent.position_liquidated])
  | _, _, _ => (p, none, [])

/-- Shallow embedding of one position's pass through
`ExecutionEngine._check_risk_management`
(`app/services/execution_engine.py`, lines 1042-1068): open positions with
positive margin are liquidated when `total_pnl <= -margin_used`;
otherwise, when `unrealized_pnl / margin_used <= -0.8`, a `margin_call`
event is emitted without forcing closure. -/
def check_risk_step (p : Position) (priceData : Option ℚ) :
    Position × Option SyntheticOrderRow × List TEvent :=
  if p.status ≠ PositionStatus.open_ then (p, none, [])
  else if 0 < p.margin_used then
    if p.total_pnl ≤ -p.margin_used then liquidate_position p priceData
    else if p.unrealized_pnl / p.margin_used ≤ -(8/10) then
      (p, none, [TEvent.margin_call])
    else (p, none, [])
  else (p, none, [])

/-- A liquidated position is terminal for every modelled mutation: fill
updates, revaluation and risk checks all skip non-open positions and never
write the `open` status back. -/
theorem liquidated_is_terminal (q : Position)
    (h : q.status = PositionStatus.liquidated) :
    (∀ orderSide t, (update_existing_position q orderSide t).1.status =
      PositionStatus.liquidated) ∧
    (∀ x : ℚ, (update_position_price q x).status = PositionStatus.liquidated) ∧
    (∀ pd, (check_risk_step q pd).1.status = PositionStatus.liquidated) := by
  have hne : q.status ≠ PositionStatus.open_ := by
    rw [h]
    exact fun hc => nomatch hc
  refine ⟨?_, ?_, ?_⟩
  · intro orderSide t
    simp [update_existing_position, hne, h]
  · intro x
    simp [update_position_price, hne, h]
  · intro pd
    simp [check_risk_step, hne, h]

/-- The spec's liquidation scenario position: margin_used = 500 and
total_pnl = -500 (equity exhausted). -/
def liqPos : Position :=
  { status := PositionStatus.open_
    side := PositionSide.long
    quantity := 2
    average_entry_price := 100
    current_price := 50
    unrealized_pnl := -100
    realized_pnl := -400
    total_pnl := -500
    leverage := 5
    margin_used := 500
    stop_loss := none
    take_profit := none
    total_trades := 1
    total_volume := 200
    total_fees := 0 }

/-- C9 (failing input): at the spec's own scenario — an open position with
margin_used = 500 and total_pnl = -500, price cached — the liquidation
trigger condition holds and `_liquidate_position` runs, but the synthetic
order row leaves `remaining_quantity`, `total_amount` and
`remaining_amount` unset against NOT NULL columns with no default, so the
commit raises and the swallowed exception leaves the position OPEN: no
order is persisted, nothing is filled, the status never becomes
`liquidated` and no `position_liquidated` event is emitted — contradicting
the claim that the engine force-closes the position and marks it
liquidated. -/
theorem C9_liquidation_never_happens :
    (liqPos.status = PositionStatus.open_ ∧ 0 < liqPos.margin_used ∧
      liqPos.total_pnl ≤ -liqPos.margin_used) ∧
    orderInsertOk (mkLiquidationOrderRow OrderSide.sell liqPos.quantity liqPos.leverage) =
      false ∧
    check_risk_step liqPos (some 50) = (liqPos, none, []) ∧
    (check_risk_step liqPos (some 50)).1.status ≠ PositionStatus.liquidated ∧
    TEvent.position_liquidated ∉ (check_risk_step liqPos (some 50)).2.2 := by
  have h1 : ¬ liqPos.status ≠ PositionStatus.open_ := fun hc => hc rfl
  have h2 : (0 : ℚ) < liqPos.margin_used := by norm_num [liqPos]
  have h3 : liqPos.total_pnl ≤ -liqPos.margin_used := by norm_num [liqPos]
  have hrun : check_risk_step liqPos (some 50) = (liqPos, none, []) := by
    simp only [check_risk_step, h1, h2, h3, ite_true, ite_false, if_pos, if_neg]
    rfl
  refine ⟨⟨rfl, h2, h3⟩, rfl, hrun, ?_, ?_⟩
  · rw [hrun]
    intro hc
    exact nomatch hc
  · rw [hrun]
    simp

/-- Program counter of one matcher pass over one order, as in
`_process_order` / `_fill_order`: try to acquire the distributed
`order_lock:{order_id}` (Redis SET NX, `_acquire_order_lock`); re-fetch
the order's status from the durable store (`_get_fresh_order` /
`session.get(..., with_for_update=True)`); check the status and fill if
still PENDING; release the lock (`_release_order_lock`, in the source's
`finally` path); halted. -/
inductive MatcherPC
  | tryLock
  | fetchOrder
  | checkAndFill
  | releaseLock
  | halted
deriving DecidableEq, Repr

/-- Global state of two concurrent matcher passes over the same pending
order: the lock holder (`none` = free), the durable order status, the
number of fills applied (Trade records created), each process's program
counter and each process's last-fetched status. -/
structure MatcherState where
  lock : Option Bool
  status : OrderStatus
  fills : ℕ
  pc : Bool → MatcherPC
  fetched : Bool → OrderStatus

/-- One atomic step of process `i`, mirroring the source's per-order
protocol: a failed `SET NX` acquisition returns without touching the order
(`_process_order` logs and returns); a successful one proceeds to the
fresh re-fetch; the status check fills only when the re-fetched status is
still PENDING (setting the order FILLED and creating one Trade, the
atomic transaction of `_fill_order`); the lock is always released. -/
def matcherStep (s : MatcherState) (i : Bool) : MatcherState :=
  match s.pc i with
  | MatcherPC.tryLock =>
    match s.lock with
    | none => { s with lock := some i, pc := Function.update s.pc i MatcherPC.fetchOrder }
    | some _ => { s with pc := Function.update s.pc i MatcherPC.halted }
  | MatcherPC.fetchOrder =>
    { s with fetched := Function.update s.fetched i s.status
             pc := Function.update s.pc i MatcherPC.checkAndFill }
  | MatcherPC.checkAndFill =>
    if s.fetched i = OrderStatus.pending then
      { s with status := OrderStatus.filled, fills := s.fills + 1
               pc := Function.update s.pc i MatcherPC.releaseLock }
    else
      { s with pc := Function.update s.pc i MatcherPC.releaseLock }
  | MatcherPC.releaseLock =>
    { s with lock := none, pc := Function.update s.pc i MatcherPC.halted }
  | MatcherPC.halted => s

/-- Run a schedule (an arbitrary interleaving of the two processes). -/
def runSched (s : MatcherState) : List Bool → MatcherState
  | [] => s
  | i :: rest => runSched (matcherStep s i) rest

/-- Initial state: the order is PENDING, the lock is free, no fills, both
matcher passes are about to try the lock. -/
def initMatcherState : MatcherState :=
  { lock := none
    status := OrderStatus.pending
    fills := 0
    pc := fun _ => MatcherPC.tryLock
    fetched := fun _ => OrderStatus.pending }

/-- The inductive invariant of the two-pass system: lock ownership matches
the program counters (mutual exclusion), a fetched status is accurate
while the fetcher still holds the lock, a releasing process has already
seen the order filled, the fill count matches the status, and two halted
passes imply the order was filled. -/
structure MatcherInv (s : MatcherState) : Prop where
  lockPhase : ∀ i, s.lock = some i →
    s.pc i = MatcherPC.fetchOrder ∨ s.pc i = MatcherPC.checkAndFill ∨
      s.pc i = MatcherPC.releaseLock
  phaseLock : ∀ i, (s.pc i = MatcherPC.fetchOrder ∨ s.pc i = MatcherPC.checkAndFill ∨
      s.pc i = MatcherPC.releaseLock) → s.lock = some i
  fetchAcc : ∀ i, s.pc i = MatcherPC.checkAndFill → s.fetched i = s.status
  relFilled : ∀ i, s.pc i = MatcherPC.releaseLock → s.status = OrderStatus.filled
  fillCount : (s.status = OrderStatus.pending ∧ s.fills = 0) ∨
    (s.status = OrderStatus.filled ∧ s.fills = 1)
  bothHalt : s.pc true = MatcherPC.halted → s.pc false = MatcherPC.halted →
    s.status = OrderStatus.filled

/-- Evaluation of a pointwise update at an arbitrary point. -/
theorem update_eval {α : Type} [DecidableEq Bool] (f : Bool → α) (i j : Bool) (v : α) :
    Function.update f i v j = if j = i then v else f j := by
  by_cases hj : j = i
  · subst hj
    simp
  · simp [hj]

/-- The invariant holds in the initial state. -/
theorem matcherInv_init : MatcherInv initMatcherState := by
  refine ⟨?_, ?_, ?_, ?_, ?_, ?_⟩ <;> simp [initMatcherState]

/-- One step of either process preserves the invariant. -/
theorem matcherInv_step (s : MatcherState) (i : Bool) (h : MatcherInv s) :
    MatcherInv (matcherStep s i) := by
  obtain ⟨hLP, hPL, hFA, hRF, hFC, hBH⟩ := h
  have notPhaseTry : ∀ j, s.pc j = MatcherPC.tryLock → s.lock ≠ some j := by
    intro j hj hc
    rcases hLP j hc with hx | hx | hx <;> rw [hj] at hx <;> exact nomatch hx
  cases hpc : s.pc i with
  | tryLock =>
    cases hlock : s.lock with
    | none =>
      simp only [matcherStep, hpc, hlock]
      refine ⟨?_, ?_, ?_, ?_, ?_, ?_⟩
      · intro j hj
        dsimp at hj
        obtain rfl : i = j := Option.some.inj hj
        simp [update_eval]
      · intro j hj
        dsimp at hj ⊢
        rw [update_eval] at hj
        by_cases hji : j = i
        · simp [hji]
        · simp [hji] at hj
          exact absurd (hPL j hj) (by simp [hlock])
      · intro j hj
        dsimp at hj ⊢
        rw [update_eval] at hj
        by_cases hji : j = i
        · simp [hji] at hj
        · simp [hji] at hj
          exact hFA j hj
      · intro j hj
        dsimp at hj ⊢
        rw [update_eval] at hj
        by_cases hji : j = i
        · simp [hji] at hj
        · simp [hji] at hj
          exact hRF j hj
      · exact hFC
      · intro h1 h2
        dsimp at h1 h2 ⊢
        rw [update_eval] at h1 h2
        by_cases hi : i = true
        · subst hi
          simp at h1
        · have hi2 : i = false := by
            cases i
            · rfl
            · exact absurd rfl hi
          subst hi2
          simp at h2
    | some k =>
      simp only [matcherStep, hpc, hlock]
      have hki : k ≠ i := by
        intro hc
        subst hc
        exact notPhaseTry k hpc hlock
      refine ⟨?_, ?_, ?_, ?_, ?_, ?_⟩
      · intro j hj
        dsimp at hj ⊢
        obtain rfl : k = j := Option.some.inj hj
        rw [update_eval]
        simp only [hki, ite_false, if_neg]
        exact hLP k hlock
      · intro j hj
        dsimp at hj ⊢
        rw [update_eval] at hj
        by_cases hji : j = i
        · simp [hji] at hj
        · simp [hji] at hj
          have := hPL j hj
          rw [hlock] at this
          exact this
      · intro j hj
        dsimp at hj ⊢
        rw [update_eval] at hj
        by_cases hji : j = i
        · simp [hji] at hj
        · simp [hji] at hj
          exact hFA j hj
      · intro j hj
        dsimp at hj ⊢
        rw [update_eval] at hj
        by_cases hji : j = i
        · simp [hji] at hj
        · simp [hji] at hj
          exact hRF j hj
      · exact hFC
      · intro h1 h2
        dsimp at h1 h2 ⊢
        rw [update_eval] at h1 h2
        exfalso
        rcases hLP k (by rw [hlock]) with hx | hx | hx <;>
          (by_cases hk : k = true
           · subst hk
             simp [hki.symm] at h1  -- wait k ≠ i: if k = true then h1 gives pc' true; j=k≠i so update leaves pc k
             rw [h1] at hx
             exact nomatch hx
           · have hk2 : k = false := by
               cases k
               · rfl
               · exact absurd rfl hk
             subst hk2
             simp [hki.symm] at h2
             rw [h2] at hx
             exact nomatch hx)
  | fetchOrder =>
    have hlock : s.lock = some i := hPL i (Or.inl hpc)
    simp only [matcherStep, hpc]
    refine ⟨?_, ?_, ?_, ?_, ?_, ?_⟩
    · intro j hj
      dsimp at hj ⊢
      rw [hlock] at hj
      obtain rfl : i = j := Option.some.inj hj
      simp [update_eval]
    · intro j hj
      dsimp at hj ⊢
      rw [update_eval] at hj
      by_cases hji : j = i
      · subst hji
        exact hlock
      · simp [hji] at hj
        exact hPL j hj
    · intro j hj
      dsimp at hj ⊢
      rw [update_eval] at hj
      rw [update_eval]
      by_cases hji : j = i
      · simp [hji]
      · simp [hji] at hj ⊢
        exact hFA j hj
    · intro j hj
      dsimp at hj ⊢
      rw [update_eval] at hj
      by_cases hji : j = i
      · simp [hji] at hj
      · simp [hji] at hj
        exact hRF j hj
    · exact hFC
    · intro h1 h2
      dsimp at h1 h2 ⊢
      rw [update_eval] at h1 h2
      by_cases hi : i = true
      · subst hi
        simp at h1
      · have hi2 : i = false := by
          cases i
          · rfl
          · exact absurd rfl hi
        subst hi2
        simp at h2
  | checkAndFill =>
    have hlock : s.lock = some i := hPL i (Or.inr (Or.inl hpc))
    have hacc : s.fetched i = s.status := hFA i hpc
    by_cases hf : s.fetched i = OrderStatus.pending
    · have hstat : s.status = OrderStatus.pending := hacc ▸ hf
      have hfl : s.fills = 0 := by
        rcases hFC with ⟨_, h0⟩ | ⟨hx, _⟩
        · exact h0
        · rw [hstat] at hx
          exact nomatch hx
      simp only [matcherStep, hpc, hf, if_pos]
      refine ⟨?_, ?_, ?_, ?_, ?_, ?_⟩
      · intro j hj
        dsimp at hj ⊢
        rw [hlock] at hj
        obtain rfl : i = j := Option.some.inj hj
        simp [update_eval]
      · intro j hj
        dsimp at hj ⊢
        rw [update_eval] at hj
        by_cases hji : j = i
        · subst hji
          exact hlock
        · simp [hji] at hj
          exact hPL j hj
      · intro j hj
        dsimp at hj ⊢
        rw [update_eval] at hj
        by_cases hji : j = i
        · simp [hji] at hj
        · simp [hji] at hj
          have := hPL j (Or.inr (Or.inl hj))
          rw [hlock] at this
          exact absurd (Option.some.inj this).symm hji
      · intro j hj
        dsimp
      · dsimp
        right
        exact ⟨rfl, by rw [hfl]⟩
      · intro h1 h2
        dsimp
    · simp only [matcherStep, hpc, hf, if_neg, ite_false]
      have hstat : s.status = OrderStatus.filled := by
        rcases hFC with ⟨hx, _⟩ | ⟨hx, _⟩
        · rw [hx] at hacc
          exact absurd hacc hf
        · exact hx
      refine ⟨?_, ?_, ?_, ?_, ?_, ?_⟩
      · intro j hj
        dsimp at hj ⊢
        rw [hlock] at hj
        obtain rfl : i = j := Option.some.inj hj
        simp [update_eval]
      · intro j hj
        dsimp at hj ⊢
        rw [update_eval] at hj
        by_cases hji : j = i
        · subst hji
          exact hlock
        · simp [hji] at hj
          exact hPL j hj
      · intro j hj
        dsimp at hj ⊢
        rw [update_eval] at hj
        by_cases hji : j = i
        · simp [hji] at hj
        · simp [hji] at hj
          exact hFA j hj
      · intro j hj
        dsimp
        exact hstat
      · exact hFC
      · intro h1 h2
        dsimp at h1 h2 ⊢
        rw [update_eval] at h1 h2
        by_cases hi : i = true
        · subst hi
          simp at h1
        · have hi2 : i = false := by
            cases i
            · rfl
            · exact absurd rfl hi
          subst hi2
          simp at h2
  | releaseLock =>
    have hstat : s.status = OrderStatus.filled := hRF i hpc
    have hlock : s.lock = some i := hPL i (Or.inr (Or.inr hpc))
    simp only [matcherStep, hpc]
    refine ⟨?_, ?_, ?_, ?_, ?_, ?_⟩
    · intro j hj
      dsimp at hj
      exact nomatch hj
    · intro j hj
      dsimp at hj ⊢
      rw [update_eval] at hj
      by_cases hji : j = i
      · simp [hji] at hj
      · simp [hji] at hj
        have := hPL j hj
        rw [hlock] at this
        exact absurd (Option.some.inj this).symm hji
    · intro j hj
      dsimp at hj ⊢
      rw [update_eval] at hj
      by_cases hji : j = i
      · simp [hji] at hj
      · simp [hji] at hj
        exact hFA j hj
    · intro j hj
      dsimp
      exact hstat
    · exact hFC
    · intro h1 h2
      dsimp
      exact hstat
  | halted =>
    simp only [matcherStep, hpc]
    exact ⟨hLP, hPL, hFA, hRF, hFC, hBH⟩

/-- The invariant is preserved along any schedule. -/
theorem matcherInv_runSched : ∀ (sched : List Bool) (s : MatcherState),
    MatcherInv s → MatcherInv (runSched s sched)
  | [], _, h => h
  | i :: rest, s, h => matcherInv_runSched rest (matcherStep s i) (matcherInv_step s i h)

/-- C10: running two concurrent matcher passes over the same pending order
— modelled as an arbitrary interleaving of the two per-order protocols
(atomic lock acquisition, fresh re-fetch, pending-status re-check, fill,
release) — produces at most one fill in every reachable state, and exactly
one fill (one Trade record, one application of the updates) once both
passes have halted; a double fill is impossible. -/
theorem C10_at_most_once_fill (sched : List Bool) :
    (runSched initMatcherState sched).fills ≤ 1 ∧
    ((runSched initMatcherState sched).pc true = MatcherPC.halted →
      (runSched initMatcherState sched).pc false = MatcherPC.halted →
      (runSched initMatcherState sched).fills = 1) := by
  have hinv := matcherInv_runSched sched initMatcherState matcherInv_init
  constructor
  · rcases hinv.fillCount with ⟨_, h0⟩ | ⟨_, h1⟩
    · rw [h0]
      exact Nat.zero_le 1
    · rw [h1]
  · intro h1 h2
    have hfilled := hinv.bothHalt h1 h2
    rcases hinv.fillCount with ⟨hx, _⟩ | ⟨_, hf⟩
    · rw [hfilled] at hx
      exact nomatch hx
    · exact hf

/-- Witness for C10 at a concrete interleaving: pass `true` runs to
completion (acquire, fetch, fill, release) and only then does pass `false`
run: it acquires the freed lock, re-fetches, sees FILLED and releases
without filling — exactly one fill results. -/
theorem C10_at_most_once_fill_witness :
    (runSched initMatcherState [true, true, true, true, false, false, false, false]).fills =
      1 :=
  (C10_at_most_once_fill [true, true, true, true, false, false, false, false]).2
    (by decide) (by decide)
